import Mathlib

/-!
Verification development for the slidev-template animation subsystem.

The definitions below are a shallow embedding of the TypeScript sources:

* `src/composables/useKonvaAnimation.ts` — the step-based tween scheduler
  (`useKonvaAnimation`): state (`currentStep`, `isAnimating`, `stepStartTime`,
  `activeTweens`), the operations `initializeTargets`, `stopAllTweens`,
  `applyStepEndState` and `animateToStep`, and the per-frame update loop
  `masterAnimate`.
* `src/utils/shapeConnector.ts` — the pure connector geometry
  (`getAnchorPoint`, `getStraightPoints`, `getCurvedPoints`,
  `getOrthogonalPoints`, `createConnection`).

JavaScript objects holding numeric properties are modelled as association
lists `List (String × ℚ)` with first-match lookup; `Object.assign(base, delta)`
becomes `assignProps base delta = delta ++ base`, so the delta's entries
shadow the base's.  `Date.now()` stamps are integer milliseconds, so the
scheduler's clock is modelled as `ℤ`; the frame loop's `requestAnimationFrame`
timestamps are fractional milliseconds, so the tick model's clock, durations
and property values are rationals.
-/

namespace KonvaAnim

/-- Property record of a JS object: association list, first match wins. -/
abbrev PropMap := List (String × ℚ)

/-- Reading `obj[key]`: first entry whose key matches, if any. -/
def getProp (m : PropMap) (key : String) : Option ℚ :=
  (m.find? (fun p => p.1 == key)).map Prod.snd

/-- `Object.assign(base, delta)`: the delta's keys override the base's. -/
def assignProps (base delta : PropMap) : PropMap :=
  delta ++ base

/-- Symbolic reference to a Konva easing function (the scheduler only stores
and forwards these; their numeric behaviour is modelled separately for the
tick loop). -/
inductive EasingRef
  | linear
  | easeInOut
  | custom : ℕ → EasingRef
deriving DecidableEq

/-- `AnimationStep` from useKonvaAnimation.ts: optional duration, easing and
delay plus the property deltas of this step. -/
structure AnimationStep where
  duration : Option ℚ
  easing : Option EasingRef
  delay : Option ℚ
  properties : PropMap
deriving DecidableEq

/-- `AnimationTarget` from useKonvaAnimation.ts: the live mutable object
(`target`), its step list and its captured initial state. -/
structure AnimationTarget where
  target : PropMap
  steps : List AnimationStep
  initialState : PropMap
deriving DecidableEq

/-- `AnimationOptions` with the defaults resolved at the top of
`useKonvaAnimation`.  `skipThreshold` is compared against differences of
`Date.now()` stamps, which are integer milliseconds. -/
structure AnimationOptions where
  skipThreshold : ℤ
  defaultDuration : ℚ
  defaultEasing : EasingRef
deriving DecidableEq

/-- The option defaults: `skipThreshold = 300`, `defaultDuration = 1000`,
`defaultEasing = Konva.Easings.EaseInOut`. -/
def defaultOptions : AnimationOptions :=
  { skipThreshold := 300, defaultDuration := 1000, defaultEasing := .easeInOut }

/-- One entry of the `animations` / `reverseAnimations` arrays built by
`animateToStep` (lines 112-122 and 280-290): precomputed keys, start values,
end values and differences, plus timing and easing for the batch.  A start or
end value is `none` when the JS lookup would yield `undefined`. -/
structure AnimJob where
  targetIdx : ℕ
  keys : List String
  startVals : List (Option ℚ)
  endVals : List (Option ℚ)
  diffs : List (Option ℚ)
  duration : ℚ
  delay : ℚ
  easing : EasingRef
deriving DecidableEq

/-- The composable's mutable state: the registered targets, the resolved
options, `currentStep` (−1 = initial state), `isAnimating`, `stepStartTime`
and the list of in-flight tween handles. -/
structure SchedState where
  targets : List AnimationTarget
  options : AnimationOptions
  currentStep : ℤ
  isAnimating : Bool
  stepStartTime : ℤ
  activeTweens : List AnimJob
deriving DecidableEq

/-- `totalSteps` over a target list: `Math.max(...lengths, 0)`. -/
def totalStepsOf (ts : List AnimationTarget) : ℕ :=
  ts.foldr (fun t m => max t.steps.length m) 0

/-- `totalSteps` computed property (line 44-46). -/
def totalSteps (s : SchedState) : ℕ :=
  totalStepsOf s.targets

/-- `initializeTargets` (lines 49-54): `Object.assign` every target's initial
state back onto it and reset `currentStep` to −1.  Note that the source does
NOT touch `activeTweens` or `isAnimating` here. -/
def initializeTargets (s : SchedState) : SchedState :=
  { s with
    targets := s.targets.map fun t =>
      { t with target := assignProps t.target t.initialState },
    currentStep := -1 }

/-- `stopAllTweens` (lines 67-75): cancel every active tween and clear
`isAnimating`. -/
def stopAllTweens (s : SchedState) : SchedState :=
  { s with activeTweens := [], isAnimating := false }

/-- The body of `applyStepEndState` for one target (lines 58-63): if the
target has a step at `stepIndex`, assign that step's properties onto it. -/
def applyStepToTarget (stepIndex : ℕ) (t : AnimationTarget) : AnimationTarget :=
  match t.steps[stepIndex]? with
  | some st => { t with target := assignProps t.target st.properties }
  | none => t

/-- `applyStepEndState(stepIndex)` (lines 57-64) over the whole target list. -/
def applyStepEndState (ts : List AnimationTarget) (stepIndex : ℕ) :
    List AnimationTarget :=
  ts.map (applyStepToTarget stepIndex)

/-- `for (let i = lo; count iterations; i++) applyStepEndState(i)` — the
ascending loop of the skip branch, by iteration count. -/
def applyStepRun (ts : List AnimationTarget) (lo : ℕ) : ℕ → List AnimationTarget
  | 0 => ts
  | n + 1 => applyStepRun (applyStepEndState ts lo) (lo + 1) n

/-- The skip-branch loop `for (let i = lo; i <= hi; i++) applyStepEndState(i)`
(lines 93-99); empty when `hi < lo`. -/
def applySkipRange (ts : List AnimationTarget) (lo hi : ℤ) :
    List AnimationTarget :=
  applyStepRun ts lo.toNat (hi + 1 - lo).toNat

/-- The reverse-branch cumulative end state for one target (lines 128-137):
spread the initial state, then assign the properties of every existing step
`0 .. stepIndex` in ascending order. -/
def cumulativeEndState (t : AnimationTarget) (stepIndex : ℕ) : PropMap :=
  (List.range (stepIndex + 1)).foldl
    (fun st i =>
      match t.steps[i]? with
      | some sp => assignProps st sp.properties
      | none => st)
    t.initialState

/-- `Object.keys` of a property record: its keys without duplicates. -/
def objectKeys (m : PropMap) : List String :=
  (m.map Prod.fst).dedup

/-- JS subtraction lifted to possibly-undefined operands (an operand that is
`undefined` poisons the difference). -/
def subOpt : Option ℚ → Option ℚ → Option ℚ
  | some a, some b => some (a - b)
  | _, _ => none

/-- Construction of one `reverseAnimations` entry (lines 140-161): keys of the
cumulative target state, start values read from the live object, end values
from the cumulative state, duration from the step being departed clamped to
the target's own step count (`Math.min(currentStep, steps.length - 1)`),
delay 0 and the default easing. -/
def mkReverseJob (opts : AnimationOptions) (curStep : ℤ) (stepIndex : ℕ)
    (idx : ℕ) (t : AnimationTarget) : AnimJob :=
  let tstate := cumulativeEndState t stepIndex
  let keys := objectKeys tstate
  let startVals := keys.map (getProp t.target)
  let endVals := keys.map (getProp tstate)
  let sourceStepIndex : ℤ := min curStep ((t.steps.length : ℤ) - 1)
  let sourceDuration : Option ℚ :=
    if 0 ≤ sourceStepIndex then
      (t.steps[sourceStepIndex.toNat]?).bind AnimationStep.duration
    else none
  { targetIdx := idx
    keys := keys
    startVals := startVals
    endVals := endVals
    diffs := List.zipWith subOpt endVals startVals
    duration := sourceDuration.getD opts.defaultDuration
    delay := 0
    easing := opts.defaultEasing }

/-- Construction of one forward `animations` entry (lines 292-314): keys of
the step's properties, start values from the live object, end values from the
step, and step-supplied or default duration/delay/easing. -/
def mkForwardJob (opts : AnimationOptions) (idx : ℕ) (t : AnimationTarget)
    (st : AnimationStep) : AnimJob :=
  let keys := objectKeys st.properties
  let startVals := keys.map (getProp t.target)
  let endVals := keys.map (getProp st.properties)
  { targetIdx := idx
    keys := keys
    startVals := startVals
    endVals := endVals
    diffs := List.zipWith subOpt endVals startVals
    duration := st.duration.getD opts.defaultDuration
    delay := st.delay.getD 0
    easing := st.easing.getD opts.defaultEasing }

/-- The `reverseAnimations` array (lines 140-161): one entry per registered
target, unconditionally. -/
def reverseJobs (s : SchedState) (stepIndex : ℕ) : List AnimJob :=
  s.targets.enum.map fun p => mkReverseJob s.options s.currentStep stepIndex p.1 p.2

/-- The forward `animations` array (lines 292-314): one entry per target that
has a step at `stepIndex`. -/
def forwardJobs (s : SchedState) (stepIndex : ℕ) : List AnimJob :=
  s.targets.enum.filterMap fun p =>
    (p.2.steps[stepIndex]?).map (mkForwardJob s.options p.1 p.2)

/-- `animateToStep(stepIndex, forceSkip)` (lines 78-428) as a state
transition, with `now` standing for `Date.now()`.  Branches in source order:
out-of-range guard (79), `stopAllTweens` (85), skip branch (88-103), reverse
branch (106-267), same-step branch (270-274) and forward branch (276-427).
Tween creation is recorded in `activeTweens`; the frame loop itself is
modelled by `tickUpdates` and `settleTweens`. -/
def animateToStep (s : SchedState) (stepIndex : ℤ) (forceSkip : Bool)
    (now : ℤ) : SchedState :=
  if stepIndex < 0 ∨ (totalSteps s : ℤ) ≤ stepIndex then s
  else
    let timeSinceLastStep := now - s.stepStartTime
    let s1 := stopAllTweens s
    if forceSkip = true ∨
        (timeSinceLastStep < s1.options.skipThreshold ∧
          s1.currentStep < stepIndex) then
      { s1 with
        targets := applySkipRange s1.targets (max 0 (s1.currentStep + 1)) stepIndex
        currentStep := stepIndex
        stepStartTime := now }
    else if stepIndex < s1.currentStep then
      let jobs := reverseJobs s1 stepIndex.toNat
      if jobs = [] then
        { s1 with
          isAnimating := false
          currentStep := stepIndex
          stepStartTime := now }
      else
        { s1 with
          isAnimating := true
          stepStartTime := now
          activeTweens := jobs
          currentStep := stepIndex }
    else if stepIndex ≤ s1.currentStep then
      { s1 with currentStep := stepIndex, stepStartTime := now }
    else
      let jobs := forwardJobs s1 stepIndex.toNat
      if jobs = [] then
        { s1 with
          isAnimating := false
          currentStep := stepIndex
          stepStartTime := now }
      else
        { s1 with
          isAnimating := true
          stepStartTime := now
          activeTweens := jobs
          currentStep := stepIndex }

/-- The key/value pairs a job writes when it completes: every key paired with
its exact end value (lines 379-384 overwrite the batch with `endVals`). -/
def jobEndPairs (j : AnimJob) : PropMap :=
  (j.keys.zip j.endVals).filterMap fun kv => kv.2.map fun v => (kv.1, v)

/-- Flushing one completed job onto the target list (`Object.assign` in the
batched microtask, lines 392-398). -/
def writeJobEnd (ts : List AnimationTarget) (j : AnimJob) :
    List AnimationTarget :=
  ts.enum.map fun p =>
    if p.1 = j.targetIdx then
      { p.2 with target := assignProps p.2.target (jobEndPairs j) }
    else p.2

/-- The observable result of letting the `masterAnimate` frame loop run to
completion undisturbed: every active job's properties are written with their
exact end values (lines 379-384, flushed at 392-398), the tween set drains
and `isAnimating` is cleared (line 401). -/
def settleTweens (s : SchedState) : SchedState :=
  { s with
    targets := s.activeTweens.foldl writeJobEnd s.targets
    activeTweens := []
    isAnimating := false }

/-- Propery lookup of target `i`'s live object: `none` when there is no such
target, otherwise the (possibly undefined) property value. -/
def propAt (ts : List AnimationTarget) (i : ℕ) (key : String) :
    Option (Option ℚ) :=
  (ts[i]?).map fun t => getProp t.target key

/-!
Per-frame tick model for the `masterAnimate` loop (lines 328-409, and its
verbatim copy for the reverse branch at lines 176-249).  JS numbers produced
by an easing function are modelled as either a finite rational or a single
absorbing non-finite value (`NaN`/`±Infinity`), and a call to the easing
function either returns such a number or throws.
-/

/-- A JS number as far as the tick loop can observe it: finite, or
non-finite (`NaN` or an infinity). -/
inductive JsNum
  | fin : ℚ → JsNum
  | nonfinite
deriving DecidableEq

/-- JS addition: non-finite operands poison the sum. -/
def jsAdd : JsNum → JsNum → JsNum
  | .fin a, .fin b => .fin (a + b)
  | _, _ => .nonfinite

/-- JS multiplication: non-finite operands poison the product. -/
def jsMul : JsNum → JsNum → JsNum
  | .fin a, .fin b => .fin (a * b)
  | _, _ => .nonfinite

/-- Outcome of calling an easing function: a returned JS number, or a thrown
exception. -/
inductive EaseEval
  | val : JsNum → EaseEval
  | thrown
deriving DecidableEq

/-- Lines 360-367: `easedProgress` starts as the linear `progress`; when the
easing is a function its result replaces it, and a thrown exception is caught
and leaves the linear value.  A returned non-finite number is NOT checked. -/
def computeEased (easing : Option (ℚ → EaseEval)) (progress : ℚ) : JsNum :=
  match easing with
  | none => .fin progress
  | some f =>
    match f progress with
    | .thrown => .fin progress
    | .val v => v

/-- One entry of the `animations` array as the tick loop consumes it, with
the easing as an evaluable function (or a non-function value). -/
structure TickAnim where
  keys : List String
  startVals : List ℚ
  endVals : List ℚ
  diffs : List ℚ
  duration : ℚ
  delay : ℚ
  easing : Option (ℚ → EaseEval)
  completed : Bool

/-- The update record one animation contributes on one tick of
`masterAnimate` (lines 347-388): `none` when the animation is already
completed or its delay has not elapsed; otherwise the interpolated value for
every key — overwritten with the exact end values on the tick where
`progress >= 1`. -/
def tickUpdates (a : TickAnim) (currentTime masterStartTime : ℚ) :
    Option (List (String × JsNum)) :=
  if a.completed = true then none
  else
    let elapsed := currentTime - masterStartTime - a.delay
    if elapsed < 0 then none
    else
      let progress := min (elapsed / a.duration) 1
      let eased := computeEased a.easing progress
      if 1 ≤ progress then
        some ((a.keys.zip a.endVals).map fun kv => (kv.1, JsNum.fin kv.2))
      else
        some ((a.keys.zip (a.startVals.zip a.diffs)).map fun kv =>
          (kv.1, jsAdd (.fin kv.2.1) (jsMul (.fin kv.2.2) eased)))

/-- One pass of the `for (const anim of animations)` loop: every animation is
processed independently on the tick. -/
def batchTick (anims : List TickAnim) (currentTime masterStartTime : ℚ) :
    List (Option (List (String × JsNum))) :=
  anims.map fun a => tickUpdates a currentTime masterStartTime

end KonvaAnim

/-!
Shallow embedding of `src/utils/shapeConnector.ts`: anchor-point and
connection-point geometry over rational coordinates.
-/

namespace ShapeConnector

/-- `AnchorPoint` union type. -/
inductive AnchorPoint
  | left
  | right
  | top
  | bottom
  | center
deriving DecidableEq

/-- `ConnectionType` union type. -/
inductive ConnectionType
  | straight
  | curved
  | orthogonal
deriving DecidableEq

/-- The `Shape` interface: position, size and optional scale factors. -/
structure Shape where
  x : ℚ
  y : ℚ
  width : ℚ
  height : ℚ
  scaleX : Option ℚ
  scaleY : Option ℚ
deriving DecidableEq

/-- `getAnchorPoint` (lines 57-94): anchor coordinates computed from the
effective dimensions `width * scaleX` and `height * scaleY`, scaled from the
shape's top-left corner; missing scale factors default to 1. -/
def getAnchorPoint (shape : Shape) (anchor : AnchorPoint) : ℚ × ℚ :=
  let scaleX := shape.scaleX.getD 1
  let scaleY := shape.scaleY.getD 1
  let effectiveWidth := shape.width * scaleX
  let effectiveHeight := shape.height * scaleY
  match anchor with
  | .left => (shape.x, shape.y + effectiveHeight / 2)
  | .right => (shape.x + effectiveWidth, shape.y + effectiveHeight / 2)
  | .top => (shape.x + effectiveWidth / 2, shape.y)
  | .bottom => (shape.x + effectiveWidth / 2, shape.y + effectiveHeight)
  | .center => (shape.x + effectiveWidth / 2, shape.y + effectiveHeight / 2)

/-- `getStraightPoints` (lines 99-104). -/
def getStraightPoints (f t : ℚ × ℚ) : List ℚ :=
  [f.1, f.2, t.1, t.2]

/-- `getCurvedPoints` (lines 109-122): midpoint control point offset upward
by a fifth of the horizontal distance. -/
def getCurvedPoints (f t : ℚ × ℚ) : List ℚ :=
  let midX := (f.1 + t.1) / 2
  let midY := (f.2 + t.2) / 2
  let offset := |t.1 - f.1| * (2 / 10)
  [f.1, f.2, midX, midY - offset, t.1, t.2]

/-- Whether an anchor exits a shape horizontally (lines 134-135). -/
def isHorizontalAnchor : AnchorPoint → Bool
  | .left => true
  | .right => true
  | _ => false

/-- `getOrthogonalPoints` (lines 127-154). -/
def getOrthogonalPoints (f t : ℚ × ℚ) (fromAnchor toAnchor : AnchorPoint) :
    List ℚ :=
  match isHorizontalAnchor fromAnchor, isHorizontalAnchor toAnchor with
  | true, false => [f.1, f.2, t.1, f.2, t.1, t.2]
  | false, true => [f.1, f.2, f.1, t.2, t.1, t.2]
  | true, true =>
    let midX := (f.1 + t.1) / 2
    [f.1, f.2, midX, f.2, midX, t.2, t.1, t.2]
  | false, false =>
    let midY := (f.2 + t.2) / 2
    [f.1, f.2, f.1, midY, t.1, midY, t.1, t.2]

/-- The `points` array computed by `createConnection` (lines 183-208): anchor
points of the two shapes routed according to the connection type. -/
def connectionPoints (fromShape toShape : Shape)
    (fromAnchor toAnchor : AnchorPoint) (ct : ConnectionType) : List ℚ :=
  let fromPoint := getAnchorPoint fromShape fromAnchor
  let toPoint := getAnchorPoint toShape toAnchor
  match ct with
  | .straight => getStraightPoints fromPoint toPoint
  | .curved => getCurvedPoints fromPoint toPoint
  | .orthogonal => getOrthogonalPoints fromPoint toPoint fromAnchor toAnchor

end ShapeConnector

/-!
Concrete instances used to evaluate the model on the scenarios named by the
specification, and as inputs for witnesses and counterexamples.
-/

namespace KonvaAnim

/-- Scenario target: baseline `{x:0}`, step 0 `{x:100, duration:100}`,
step 1 `{x:200, duration:100}`. -/
def scnTarget : AnimationTarget :=
  { target := [("x", 0)]
    initialState := [("x", 0)]
    steps :=
      [{ duration := some 100, easing := none, delay := none,
         properties := [("x", 100)] },
       { duration := some 100, easing := none, delay := none,
         properties := [("x", 200)] }] }

/-- Scenario start state: fresh composable over `scnTarget`. -/
def scnState0 : SchedState :=
  { targets := [scnTarget], options := defaultOptions, currentStep := -1,
    isAnimating := false, stepStartTime := 0, activeTweens := [] }

/-- After `animateToStep(0)` at t=1000 and letting the tween settle. -/
def scnState1 : SchedState := settleTweens (animateToStep scnState0 0 false 1000)

/-- After `animateToStep(1)` at t=2000 and letting the tween settle. -/
def scnState2 : SchedState := settleTweens (animateToStep scnState1 1 false 2000)

/-- After the final `animateToStep(0, forceSkip=true)` at t=3000. -/
def scnState3 : SchedState := animateToStep scnState2 0 true 3000

/-- Two targets each fading `opacity` from baseline 0 to 1 in one step. -/
def fadeTarget : AnimationTarget :=
  { target := [("opacity", 0)]
    initialState := [("opacity", 0)]
    steps :=
      [{ duration := some 1000, easing := none, delay := none,
         properties := [("opacity", 1)] }] }

/-- Start state of the two-target fade scenario. -/
def fadeState0 : SchedState :=
  { targets := [fadeTarget, fadeTarget], options := defaultOptions,
    currentStep := -1, isAnimating := false, stepStartTime := 0,
    activeTweens := [] }

/-- The fade scenario mid-tween: `animateToStep(0)` has been called past the
skip window, so a tween is in flight. -/
def fadeStateMid : SchedState := animateToStep fadeState0 0 false 1000

/-- One target with eight steps, step `i` setting `x` to `100 * (i + 1)`. -/
def eightTarget : AnimationTarget :=
  { target := [("x", 0)]
    initialState := [("x", 0)]
    steps :=
      [{ duration := none, easing := none, delay := none, properties := [("x", 100)] },
       { duration := none, easing := none, delay := none, properties := [("x", 200)] },
       { duration := none, easing := none, delay := none, properties := [("x", 300)] },
       { duration := none, easing := none, delay := none, properties := [("x", 400)] },
       { duration := none, easing := none, delay := none, properties := [("x", 500)] },
       { duration := none, easing := none, delay := none, properties := [("x", 600)] },
       { duration := none, easing := none, delay := none, properties := [("x", 700)] },
       { duration := none, easing := none, delay := none, properties := [("x", 800)] }] }

/-- Start state with `totalSteps = 8`. -/
def eightState0 : SchedState :=
  { targets := [eightTarget], options := defaultOptions, currentStep := -1,
    isAnimating := false, stepStartTime := 0, activeTweens := [] }

/-- A target with a single step that declares `duration: 77`. -/
def shortTarget : AnimationTarget :=
  { target := [("x", 0)]
    initialState := [("x", 0)]
    steps :=
      [{ duration := some 77, easing := none, delay := none,
         properties := [("x", 10)] }] }

/-- A target with three steps whose step 2 declares `duration: 500`. -/
def longTarget : AnimationTarget :=
  { target := [("y", 0)]
    initialState := [("y", 0)]
    steps :=
      [{ duration := none, easing := none, delay := none, properties := [("y", 1)] },
       { duration := none, easing := none, delay := none, properties := [("y", 2)] },
       { duration := some 500, easing := none, delay := none, properties := [("y", 3)] }] }

/-- A settled state at step 2 over `shortTarget` and `longTarget`
(`totalSteps = 3`), about to navigate backwards. -/
def mixedState : SchedState :=
  { targets := [shortTarget, longTarget], options := defaultOptions,
    currentStep := 2, isAnimating := false, stepStartTime := 0,
    activeTweens := [] }

/-- The backward call `animateToStep(0)` (no skip) from `mixedState`. -/
def mixedReversed : SchedState := animateToStep mixedState 0 false 10000

/-- Small state for witnesses: one target, two steps on `x`. -/
def wTarget : AnimationTarget :=
  { target := [("x", 0)]
    initialState := [("x", 0)]
    steps :=
      [{ duration := some 200, easing := some (.custom 3), delay := none,
         properties := [("x", 5)] },
       { duration := none, easing := none, delay := none,
         properties := [("x", 9)] }] }

/-- Witness start state over `wTarget`. -/
def wState : SchedState :=
  { targets := [wTarget], options := defaultOptions, currentStep := -1,
    isAnimating := false, stepStartTime := 0, activeTweens := [] }

/-- Tick-model animation used by the interpolation witness: `x` from 0 to 10
over 100ms, no easing function. -/
def wTickAnim : TickAnim :=
  { keys := ["x"], startVals := [0], endVals := [10], diffs := [10],
    duration := 100, delay := 0, easing := none, completed := false }

/-- Tick-model animation whose easing function returns a non-finite number
at every progress value. -/
def nfTickAnim : TickAnim :=
  { keys := ["x"], startVals := [0], endVals := [10], diffs := [10],
    duration := 100, delay := 0,
    easing := some fun _ => .val .nonfinite, completed := false }

/-- Tick-model animation whose easing function always throws. -/
def throwTickAnim : TickAnim :=
  { keys := ["x"], startVals := [0], endVals := [10], diffs := [10],
    duration := 100, delay := 0,
    easing := some fun _ => .thrown, completed := false }

end KonvaAnim

/-!
General lemmas about the embedding, shared by the claim theorems below.
-/

namespace KonvaAnim

theorem getProp_assignProps (base delta : PropMap) (key : String) :
    getProp (assignProps base delta) key =
      (getProp delta key).or (getProp base key) := by
  unfold getProp assignProps
  rw [List.find?_append]
  cases delta.find? (fun p => p.1 == key) <;> simp [Option.or]

theorem applyStepToTarget_steps (j : ℕ) (t : AnimationTarget) :
    (applyStepToTarget j t).steps = t.steps := by
  unfold applyStepToTarget
  cases t.steps[j]? <;> rfl

theorem getProp_applyStepToTarget_twice (j : ℕ) (t : AnimationTarget)
    (key : String) :
    getProp (applyStepToTarget j (applyStepToTarget j t)).target key =
      getProp (applyStepToTarget j t).target key := by
  cases h : t.steps[j]? with
  | none => simp [applyStepToTarget, h]
  | some st =>
    simp only [applyStepToTarget, h]
    rw [getProp_assignProps, getProp_assignProps]
    cases getProp st.properties key <;> simp [Option.or]

theorem propAt_applyStepEndState (ts : List AnimationTarget) (j i : ℕ)
    (key : String) :
    propAt (applyStepEndState ts j) i key =
      (ts[i]?).map fun t => getProp (applyStepToTarget j t).target key := by
  unfold propAt applyStepEndState
  rw [List.getElem?_map]
  cases ts[i]? <;> rfl

theorem propAt_applyStepEndState_twice (ts : List AnimationTarget) (j i : ℕ)
    (key : String) :
    propAt (applyStepEndState (applyStepEndState ts j) j) i key =
      propAt (applyStepEndState ts j) i key := by
  rw [propAt_applyStepEndState]
  unfold propAt applyStepEndState
  rw [List.getElem?_map]
  cases ts[i]? with
  | none => rfl
  | some t => simp [getProp_applyStepToTarget_twice]

theorem applyStepRun_succ (lo n : ℕ) (ts : List AnimationTarget) :
    applyStepRun ts lo (n + 1) =
      applyStepEndState (applyStepRun ts lo n) (lo + n) := by
  induction n generalizing ts lo with
  | zero => simp [applyStepRun]
  | succ m ih =>
    show applyStepRun (applyStepEndState ts lo) (lo + 1) (m + 1) = _
    rw [ih]
    show applyStepEndState (applyStepRun (applyStepEndState ts lo) (lo + 1) m) (lo + 1 + m) =
      applyStepEndState (applyStepRun (applyStepEndState ts lo) (lo + 1) m) (lo + (m + 1))
    ring_nf

theorem totalStepsOf_applyStepEndState (ts : List AnimationTarget) (j : ℕ) :
    totalStepsOf (applyStepEndState ts j) = totalStepsOf ts := by
  induction ts with
  | nil => rfl
  | cons t rest ih =>
    unfold totalStepsOf applyStepEndState at ih ⊢
    simp only [List.map_cons, List.foldr_cons]
    rw [applyStepToTarget_steps, ih]

theorem totalStepsOf_applyStepRun (n lo : ℕ) (ts : List AnimationTarget) :
    totalStepsOf (applyStepRun ts lo n) = totalStepsOf ts := by
  induction n generalizing ts lo with
  | zero => rfl
  | succ m ih =>
    show totalStepsOf (applyStepRun (applyStepEndState ts lo) (lo + 1) m) = _
    rw [ih, totalStepsOf_applyStepEndState]

theorem totalStepsOf_applySkipRange (ts : List AnimationTarget) (lo hi : ℤ) :
    totalStepsOf (applySkipRange ts lo hi) = totalStepsOf ts := by
  unfold applySkipRange
  exact totalStepsOf_applyStepRun _ _ _

theorem animateToStep_skip (s : SchedState) (stepIndex : ℤ) (forceSkip : Bool)
    (now : ℤ) (h0 : 0 ≤ stepIndex) (hN : stepIndex < (totalSteps s : ℤ))
    (hcond : forceSkip = true ∨
      (now - s.stepStartTime < s.options.skipThreshold ∧
        s.currentStep < stepIndex)) :
    animateToStep s stepIndex forceSkip now =
      { s with
        targets := applySkipRange s.targets (max 0 (s.currentStep + 1)) stepIndex
        currentStep := stepIndex
        isAnimating := false
        stepStartTime := now
        activeTweens := [] } := by
  unfold animateToStep stopAllTweens
  rw [if_neg (by omega), if_pos hcond]

theorem animateToStep_ignored (s : SchedState) (stepIndex : ℤ)
    (forceSkip : Bool) (now : ℤ)
    (h : stepIndex < 0 ∨ (totalSteps s : ℤ) ≤ stepIndex) :
    animateToStep s stepIndex forceSkip now = s := by
  unfold animateToStep
  rw [if_pos h]

/-- Claim C2 counterexample: in the two-target fade scenario, calling
`initializeTargets()` mid-tween does NOT cancel the in-flight tweens —
`isAnimating` is still `true` immediately after the call returns and the
tween set is untouched, even though the baselines were written back and
`currentStep` was reset. -/
theorem c2_counterexample :
    fadeStateMid.isAnimating = true ∧
    (initializeTargets fadeStateMid).isAnimating = true ∧
    (initializeTargets fadeStateMid).activeTweens.length = 2 ∧
    (initializeTargets fadeStateMid).currentStep = -1 ∧
    propAt (initializeTargets fadeStateMid).targets 0 "opacity" =
      some (some 0) ∧
    propAt (initializeTargets fadeStateMid).targets 1 "opacity" =
      some (some 0) := by
  decide

/-- Claim C2 (amended): `initializeTargets()` writes every target's baseline
property values back onto that target and sets `currentStep` to −1, but it
does NOT cancel in-flight tweens and does not modify `isAnimating`;
cancellation requires a separate `stopAllTweens()` call (as the page-change
watcher performs). -/
theorem c2_initialize_targets (s : SchedState) (i : ℕ) (key : String) :
    (initializeTargets s).currentStep = -1 ∧
    (initializeTargets s).isAnimating = s.isAnimating ∧
    (initializeTargets s).activeTweens = s.activeTweens ∧
    propAt (initializeTargets s).targets i key =
      (s.targets[i]?).map fun t =>
        (getProp t.initialState key).or (getProp t.target key) := by
  refine ⟨rfl, rfl, rfl, ?_⟩
  unfold propAt initializeTargets
  rw [List.getElem?_map]
  cases s.targets[i]? with
  | none => rfl
  | some t => simp [getProp_assignProps]

/-- Claim C3 counterexample: with `totalSteps = 8`, `animateToStep(999, true)`
is ignored (state unchanged, `currentStep` still −1, `x` still 0), while
`animateToStep(7, true)` applies all step end states (`x = 800`,
`currentStep = 7`); likewise `animateToStep(-5, true)` is a no-op while
`animateToStep(0, true)` moves `x` to 100.  The claim's "clamps" behaviour
does not hold. -/
theorem c3_counterexample :
    (animateToStep eightState0 999 true 0).currentStep = -1 ∧
    (animateToStep eightState0 7 true 0).currentStep = 7 ∧
    propAt (animateToStep eightState0 999 true 0).targets 0 "x" =
      some (some 0) ∧
    propAt (animateToStep eightState0 7 true 0).targets 0 "x" =
      some (some 800) ∧
    animateToStep eightState0 (-5) true 0 = eightState0 ∧
    (animateToStep eightState0 0 true 0).currentStep = 0 ∧
    propAt (animateToStep eightState0 0 true 0).targets 0 "x" =
      some (some 100) := by
  decide

/-- Claim C3 (amended): `animateToStep` does not clamp its argument; any
out-of-range step index (negative, or at least `totalSteps`) is ignored as a
complete no-op — the state is returned unchanged, unlike the corresponding
in-range call. -/
theorem c3_out_of_range_noop (s : SchedState) (stepIndex : ℤ)
    (forceSkip : Bool) (now : ℤ)
    (h : stepIndex < 0 ∨ (totalSteps s : ℤ) ≤ stepIndex) :
    animateToStep s stepIndex forceSkip now = s :=
  animateToStep_ignored s stepIndex forceSkip now h

/-- Witness for C3 (amended) at `totalSteps = 8`, `stepIndex = 999`. -/
theorem c3_out_of_range_noop_witness :
    ((999 : ℤ) < 0 ∨ (totalSteps eightState0 : ℤ) ≤ 999) ∧
    animateToStep eightState0 999 true 0 = eightState0 :=
  ⟨by decide, c3_out_of_range_noop eightState0 999 true 0 (by decide)⟩

/-- Claim C6: when `forceSkip` is set, or the call advances forward within
the skip threshold, `animateToStep` applies the per-step end states for
every index from `max(0, currentStep+1)` through `stepIndex` in ascending
order (`applySkipRange` iterates `applyStepEndState` upward), sets
`currentStep = stepIndex`, and creates no tween: `isAnimating` is false and
the tween set is empty. -/
theorem c6_skip_branch (s : SchedState) (stepIndex : ℤ) (forceSkip : Bool)
    (now : ℤ) (h0 : 0 ≤ stepIndex) (hN : stepIndex < (totalSteps s : ℤ))
    (hcond : forceSkip = true ∨
      (now - s.stepStartTime < s.options.skipThreshold ∧
        s.currentStep < stepIndex)) :
    (animateToStep s stepIndex forceSkip now).targets =
      applySkipRange s.targets (max 0 (s.currentStep + 1)) stepIndex ∧
    (animateToStep s stepIndex forceSkip now).currentStep = stepIndex ∧
    (animateToStep s stepIndex forceSkip now).isAnimating = false ∧
    (animateToStep s stepIndex forceSkip now).activeTweens = [] := by
  rw [animateToStep_skip s stepIndex forceSkip now h0 hN hcond]
  exact ⟨rfl, rfl, rfl, rfl⟩

/-- Witness for C6 at a concrete two-step state with `forceSkip = true`. -/
theorem c6_skip_branch_witness :
    (0 : ℤ) ≤ 1 ∧ (1 : ℤ) < (totalSteps wState : ℤ) ∧
    ((true : Bool) = true ∨
      ((50 : ℤ) - wState.stepStartTime < wState.options.skipThreshold ∧
        wState.currentStep < 1)) ∧
    ((animateToStep wState 1 true 50).targets =
      applySkipRange wState.targets (max 0 (wState.currentStep + 1)) 1 ∧
    (animateToStep wState 1 true 50).currentStep = 1 ∧
    (animateToStep wState 1 true 50).isAnimating = false ∧
    (animateToStep wState 1 true 50).activeTweens = []) :=
  ⟨by decide, by decide, Or.inl rfl,
    c6_skip_branch wState 1 true 50 (by decide) (by decide) (Or.inl rfl)⟩

/-- Claim C10: for every in-range `stepIndex`, `animateToStep` sets
`currentStep` to exactly `stepIndex` synchronously in every branch
(including the animated backward branch, which updates it at call time), and
`currentStep` always stays within `[-1, totalSteps − 1]`; `initializeTargets`
resets it to −1. -/
theorem c10_current_step (s : SchedState) (stepIndex : ℤ) (forceSkip : Bool)
    (now : ℤ) (hlo : -1 ≤ s.currentStep)
    (hhi : s.currentStep < (totalSteps s : ℤ)) :
    (0 ≤ stepIndex → stepIndex < (totalSteps s : ℤ) →
      (animateToStep s stepIndex forceSkip now).currentStep = stepIndex) ∧
    -1 ≤ (animateToStep s stepIndex forceSkip now).currentStep ∧
    (animateToStep s stepIndex forceSkip now).currentStep <
      (totalSteps s : ℤ) ∧
    (initializeTargets s).currentStep = -1 := by
  have key : (animateToStep s stepIndex forceSkip now).currentStep =
        s.currentStep ∨
      ((animateToStep s stepIndex forceSkip now).currentStep = stepIndex ∧
        0 ≤ stepIndex ∧ stepIndex < (totalSteps s : ℤ)) := by
    unfold animateToStep stopAllTweens
    by_cases h1 : stepIndex < 0 ∨ (totalSteps s : ℤ) ≤ stepIndex
    · rw [if_pos h1]
      left
      rfl
    · rw [if_neg h1]
      dsimp only
      split_ifs <;> exact Or.inr ⟨rfl, by omega, by omega⟩
  have hinit : (initializeTargets s).currentStep = -1 := rfl
  rcases key with h | ⟨h, hb1, hb2⟩
  · refine ⟨fun ha hb => ?_, ?_, ?_, hinit⟩
    · by_cases h1 : stepIndex < 0 ∨ (totalSteps s : ℤ) ≤ stepIndex
      · omega
      · unfold animateToStep stopAllTweens
        rw [if_neg h1]
        dsimp only
        split_ifs <;> rfl
    · omega
    · omega
  · exact ⟨fun _ _ => h, by omega, by omega, hinit⟩

/-- Claim C4: from baseline, the force-skip sequence `k, k−1, k` leaves every
target's property values identical to a single direct force-skip to `k`: the
first call applies steps `0..k`, the second applies nothing (its skip range
`k+1 .. k−1` is empty), and the third re-applies step `k`, which is
idempotent on property values. -/
theorem c4_roundtrip (s : SchedState) (k : ℕ) (n1 n2 n3 n4 : ℤ)
    (hbase : s.currentStep = -1) (hk : 1 ≤ k)
    (hN : (k : ℤ) < (totalSteps s : ℤ)) (i : ℕ) (key : String) :
    propAt (animateToStep (animateToStep (animateToStep s (k : ℤ) true n1)
        ((k : ℤ) - 1) true n2) (k : ℤ) true n3).targets i key =
      propAt (animateToStep s (k : ℤ) true n4).targets i key := by
  have hfull : applySkipRange s.targets (max 0 (s.currentStep + 1)) (k : ℤ) =
      applyStepRun s.targets 0 (k + 1) := by
    unfold applySkipRange
    have hA : (max 0 (s.currentStep + 1)).toNat = 0 := by omega
    have hB : ((k : ℤ) + 1 - max 0 (s.currentStep + 1)).toNat = k + 1 := by
      omega
    rw [hA, hB]
  have e1 := animateToStep_skip s (k : ℤ) true n1 (by omega) hN (Or.inl rfl)
  rw [hfull] at e1
  have e4 := animateToStep_skip s (k : ℤ) true n4 (by omega) hN (Or.inl rfl)
  rw [hfull] at e4
  set T1 : List AnimationTarget := applyStepRun s.targets 0 (k + 1) with hT1
  have hts1 : totalStepsOf T1 = totalSteps s := by
    rw [hT1]
    exact totalStepsOf_applyStepRun _ _ _
  rw [e1]
  have e2 := animateToStep_skip
    { s with
        targets := T1
        currentStep := (k : ℤ)
        isAnimating := false
        stepStartTime := n1
        activeTweens := [] }
    ((k : ℤ) - 1) true n2 (by omega)
    (by
      show (k : ℤ) - 1 < (totalStepsOf T1 : ℤ)
      rw [hts1]
      omega)
    (Or.inl rfl)
  rw [e2]
  dsimp only
  have hempty : applySkipRange T1 (max 0 ((k : ℤ) + 1)) ((k : ℤ) - 1) = T1 := by
    unfold applySkipRange
    have hB : (((k : ℤ) - 1) + 1 - max 0 ((k : ℤ) + 1)).toNat = 0 := by omega
    rw [hB]
    rfl
  rw [hempty]
  have e3 := animateToStep_skip
    { s with
        targets := T1
        currentStep := (k : ℤ) - 1
        isAnimating := false
        stepStartTime := n2
        activeTweens := [] }
    (k : ℤ) true n3 (by omega)
    (by
      show (k : ℤ) < (totalStepsOf T1 : ℤ)
      rw [hts1]
      omega)
    (Or.inl rfl)
  rw [e3, e4]
  dsimp only
  have hlast : applySkipRange T1 (max 0 ((k : ℤ) - 1 + 1)) (k : ℤ) =
      applyStepEndState T1 k := by
    unfold applySkipRange
    have hA : (max 0 ((k : ℤ) - 1 + 1)).toNat = k := by omega
    have hB : ((k : ℤ) + 1 - max 0 ((k : ℤ) - 1 + 1)).toNat = 1 := by omega
    rw [hA, hB]
    rfl
  rw [hlast, hT1, applyStepRun_succ, Nat.zero_add]
  exact propAt_applyStepEndState_twice _ _ _ _

/-- Witness for C4 at a concrete two-step state with `k = 1`. -/
theorem c4_roundtrip_witness :
    wState.currentStep = -1 ∧ 1 ≤ 1 ∧
    ((1 : ℕ) : ℤ) < (totalSteps wState : ℤ) ∧
    propAt (animateToStep (animateToStep (animateToStep wState ((1 : ℕ) : ℤ)
        true 10) (((1 : ℕ) : ℤ) - 1) true 20) ((1 : ℕ) : ℤ) true 30).targets
        0 "x" =
      propAt (animateToStep wState ((1 : ℕ) : ℤ) true 40).targets 0 "x" :=
  ⟨by decide, by decide, by decide,
    c4_roundtrip wState 1 10 20 30 40 (by decide) (by decide) (by decide)
      0 "x"⟩

/-- Claim C1 evaluation: running the spec's scenario through the model.  The
two animated calls settle at `x = 100` and then `x = 200` as the claim's
premises state, but the final `animateToStep(0, forceSkip=true)` leaves
`x = 200`: the skip branch applies steps `max(0, currentStep+1) .. 0`, an
empty range when `currentStep = 1`, so no property is written even though
`currentStep` becomes 0 and `isAnimating` is false.  The claim expects
`x = 100`. -/
theorem c1_eval :
    propAt scnState1.targets 0 "x" = some (some 100) ∧
    scnState1.currentStep = 0 ∧ scnState1.isAnimating = false ∧
    propAt scnState2.targets 0 "x" = some (some 200) ∧
    scnState2.currentStep = 1 ∧ scnState2.isAnimating = false ∧
    propAt scnState3.targets 0 "x" = some (some 200) ∧
    scnState3.isAnimating = false ∧ scnState3.currentStep = 0 := by
  decide

/-- `reverseJobs` is insensitive to `stopAllTweens` (it reads only targets,
options and currentStep). -/
theorem reverseJobs_stopAllTweens (s : SchedState) (n : ℕ) :
    reverseJobs (stopAllTweens s) n = reverseJobs s n := rfl

/-- Indexing the reverse-job list: one job per target, in target order. -/
theorem reverseJobs_getElem? (s : SchedState) (n i : ℕ) :
    (reverseJobs s n)[i]? =
      (s.targets[i]?).map fun t =>
        mkReverseJob s.options s.currentStep n i t := by
  unfold reverseJobs
  rw [List.getElem?_map, List.getElem?_enum]
  cases s.targets[i]? <;> rfl

/-- The reverse-job list has one entry per registered target. -/
theorem reverseJobs_length (s : SchedState) (n : ℕ) :
    (reverseJobs s n).length = s.targets.length := by
  unfold reverseJobs
  rw [List.length_map, List.enum_length]

/-- Branch characterisation: a backward, non-skip call with at least one
registered target stops current tweens, installs the reverse jobs, marks
`isAnimating` and moves `currentStep` immediately. -/
theorem animateToStep_backward (s : SchedState) (stepIndex now : ℤ)
    (h0 : 0 ≤ stepIndex) (hN : stepIndex < (totalSteps s : ℤ))
    (hlt : stepIndex < s.currentStep)
    (hjobs : reverseJobs s stepIndex.toNat ≠ []) :
    animateToStep s stepIndex false now =
      { s with
          isAnimating := true
          stepStartTime := now
          activeTweens := reverseJobs s stepIndex.toNat
          currentStep := stepIndex } := by
  unfold animateToStep stopAllTweens
  dsimp only
  rw [if_neg (by omega), if_neg ?hskip, if_pos hlt, if_neg ?hj]
  · rfl
  case hskip =>
    intro h
    rcases h with h | ⟨h1, h2⟩
    · simp at h
    · omega
  case hj => exact hjobs

/-- Claim C8 counterexample: two targets settled at `currentStep = 2`, where
the first target has a single step declaring `duration: 77` (and no step 2 —
the step being departed) while the second target's step 2 declares
`duration: 500` and the default duration is 1000.  The reverse tween created
for the first target uses duration 77 — the duration of that target's step
`min(currentStep, steps.length - 1) = 0` — not the default duration and not
the departed step's duration. -/
theorem c8_counterexample :
    (mixedReversed.activeTweens[0]?).map AnimJob.duration = some 77 ∧
    shortTarget.steps[2]? = none ∧
    mixedState.options.defaultDuration = 1000 ∧
    (longTarget.steps[2]?).bind AnimationStep.duration = some 500 ∧
    (mixedReversed.activeTweens[0]?).map AnimJob.duration ≠ some 1000 ∧
    (mixedReversed.activeTweens[0]?).map AnimJob.duration ≠ some 500 := by
  decide

/-- Claim C8 (amended): for a backward, non-skip call the scheduler creates,
per registered target, one reverse tween that animates every property of the
cumulative end state from its current live value to that cumulative value
(baseline with the deltas of steps `0..stepIndex` merged in ascending
order), with the default easing, zero delay, and the duration of the
target's step at index `min(currentStep, steps.length − 1)` — the departed
step clamped to the target's own step count — falling back to the default
duration when that step omits a duration or when the target has no steps;
`currentStep` is set immediately and `isAnimating` becomes true. -/
theorem c8_backward_reverse (s : SchedState) (stepIndex now : ℤ)
    (h0 : 0 ≤ stepIndex) (hN : stepIndex < (totalSteps s : ℤ))
    (hlt : stepIndex < s.currentStep)
    (i : ℕ) (t : AnimationTarget) (hti : s.targets[i]? = some t) :
    (animateToStep s stepIndex false now).currentStep = stepIndex ∧
    (animateToStep s stepIndex false now).isAnimating = true ∧
    ∃ job : AnimJob,
      (animateToStep s stepIndex false now).activeTweens[i]? = some job ∧
      job.keys = objectKeys (cumulativeEndState t stepIndex.toNat) ∧
      job.startVals = job.keys.map (getProp t.target) ∧
      job.endVals =
        job.keys.map (getProp (cumulativeEndState t stepIndex.toNat)) ∧
      job.easing = s.options.defaultEasing ∧
      job.delay = 0 ∧
      job.duration =
        (if t.steps = [] then s.options.defaultDuration
         else ((t.steps[(min s.currentStep
             ((t.steps.length : ℤ) - 1)).toNat]?).bind
           AnimationStep.duration).getD s.options.defaultDuration) := by
  have hlen : i < s.targets.length := by
    rcases List.getElem?_eq_some.mp hti with ⟨hl, hv⟩
    exact hl
  have hjobs : reverseJobs s stepIndex.toNat ≠ [] := by
    intro hcon
    have hlen2 := reverseJobs_length s stepIndex.toNat
    rw [hcon] at hlen2
    simp only [List.length_nil] at hlen2
    omega
  rw [animateToStep_backward s stepIndex now h0 hN hlt hjobs]
  refine ⟨rfl, rfl, mkReverseJob s.options s.currentStep stepIndex.toNat i t,
    ?_, rfl, rfl, rfl, rfl, rfl, ?_⟩
  · show (reverseJobs s stepIndex.toNat)[i]? = _
    rw [reverseJobs_getElem?, hti]
    rfl
  · show (if 0 ≤ min s.currentStep ((t.steps.length : ℤ) - 1) then
        (t.steps[(min s.currentStep ((t.steps.length : ℤ) - 1)).toNat]?).bind
          AnimationStep.duration
      else none).getD s.options.defaultDuration = _
    by_cases hnil : t.steps = []
    · rw [if_pos hnil]
      have hneg : min s.currentStep ((t.steps.length : ℤ) - 1) < 0 := by
        rw [hnil]
        simp only [List.length_nil, Nat.cast_zero]
        omega
      rw [if_neg (by omega)]
      rfl
    · rw [if_neg hnil]
      have hpos : 0 < t.steps.length := List.length_pos.mpr hnil
      rw [if_pos (by omega)]

/-- Witness for C8 (amended) at the two-target `mixedState`. -/
theorem c8_backward_reverse_witness :
    (0 : ℤ) ≤ 0 ∧ (0 : ℤ) < (totalSteps mixedState : ℤ) ∧
    (0 : ℤ) < mixedState.currentStep ∧
    mixedState.targets[0]? = some shortTarget ∧
    ((animateToStep mixedState 0 false 10000).currentStep = 0 ∧
    (animateToStep mixedState 0 false 10000).isAnimating = true ∧
    ∃ job : AnimJob,
      (animateToStep mixedState 0 false 10000).activeTweens[0]? = some job ∧
      job.keys = objectKeys (cumulativeEndState shortTarget (0 : ℤ).toNat) ∧
      job.startVals = job.keys.map (getProp shortTarget.target) ∧
      job.endVals =
        job.keys.map (getProp (cumulativeEndState shortTarget (0 : ℤ).toNat)) ∧
      job.easing = mixedState.options.defaultEasing ∧
      job.delay = 0 ∧
      job.duration =
        (if shortTarget.steps = [] then mixedState.options.defaultDuration
         else ((shortTarget.steps[(min mixedState.currentStep
             ((shortTarget.steps.length : ℤ) - 1)).toNat]?).bind
           AnimationStep.duration).getD mixedState.options.defaultDuration)) :=
  ⟨by decide, by decide, by decide, by decide,
    c8_backward_reverse mixedState 0 10000 (by decide) (by decide) (by decide)
      0 shortTarget (by decide)⟩

/-- Indexing a zipped list. -/
theorem getElem?_zipPair {α β : Type} (l1 : List α) (l2 : List β) (i : ℕ) :
    (l1.zip l2)[i]? = l1[i]?.bind fun a => l2[i]?.map fun b => (a, b) := by
  induction l1 generalizing l2 i with
  | nil => simp
  | cons x xs ih =>
    cases l2 with
    | nil => simp
    | cons y ys =>
      cases i with
      | zero => simp [List.zip_cons_cons]
      | succ j => simpa [List.zip_cons_cons] using ih ys j

/-- Claim C5: on a tick where the animation is live (not completed, delay
elapsed), the value written for the i-th key is exactly
`startVal + (endVal − startVal) * easedProgress`, and on a tick where
`progress >= 1` the written value is exactly `endVal` — the interpolated
batch entry is overwritten with the declared end value, so a completed
animation leaves no residual. -/
theorem c5_interpolation (a : TickAnim) (ct ms : ℚ) (i : ℕ)
    (hc : a.completed = false) (_hd : 0 < a.duration)
    (hdiffs : a.diffs = List.zipWith (fun e s => e - s) a.endVals a.startVals)
    (hsl : a.startVals.length = a.keys.length)
    (hel : a.endVals.length = a.keys.length)
    (he : 0 ≤ ct - ms - a.delay) (hi : i < a.keys.length) :
    (tickUpdates a ct ms).bind (fun l => l[i]?) =
      some ((a.keys[i]?).getD "",
        if 1 ≤ min ((ct - ms - a.delay) / a.duration) 1 then
          JsNum.fin ((a.endVals[i]?).getD 0)
        else
          jsAdd (JsNum.fin ((a.startVals[i]?).getD 0))
            (jsMul
              (JsNum.fin
                ((a.endVals[i]?).getD 0 - (a.startVals[i]?).getD 0))
              (computeEased a.easing
                (min ((ct - ms - a.delay) / a.duration) 1)))) := by
  obtain ⟨k, hk⟩ : ∃ k, a.keys[i]? = some k := by
    cases hcase : a.keys[i]? with
    | none =>
      rw [List.getElem?_eq_none_iff] at hcase
      omega
    | some k => exact ⟨k, rfl⟩
  obtain ⟨sv, hsv⟩ : ∃ sv, a.startVals[i]? = some sv := by
    cases hcase : a.startVals[i]? with
    | none =>
      rw [List.getElem?_eq_none_iff] at hcase
      omega
    | some sv => exact ⟨sv, rfl⟩
  obtain ⟨ev, hev⟩ : ∃ ev, a.endVals[i]? = some ev := by
    cases hcase : a.endVals[i]? with
    | none =>
      rw [List.getElem?_eq_none_iff] at hcase
      omega
    | some ev => exact ⟨ev, rfl⟩
  have hdv : a.diffs[i]? = some (ev - sv) := by
    rw [hdiffs, List.getElem?_zipWith', hev, hsv]
    rfl
  unfold tickUpdates
  rw [if_neg (by simp [hc]), if_neg (by linarith)]
  by_cases hp : 1 ≤ min ((ct - ms - a.delay) / a.duration) 1
  · rw [if_pos hp, if_pos hp, Option.some_bind, List.getElem?_map,
      getElem?_zipPair, hk, hev]
    simp
  · rw [if_neg hp, if_neg hp, Option.some_bind, List.getElem?_map,
      getElem?_zipPair, hk, getElem?_zipPair, hsv, hdv]
    simp [hk, hsv, hev]

/-- Witness for C5: `x` from 0 to 10 over 100ms, tick at t = 50. -/
theorem c5_interpolation_witness :
    wTickAnim.completed = false ∧ (0 : ℚ) < wTickAnim.duration ∧
    wTickAnim.diffs =
      List.zipWith (fun e s => e - s) wTickAnim.endVals wTickAnim.startVals ∧
    wTickAnim.startVals.length = wTickAnim.keys.length ∧
    wTickAnim.endVals.length = wTickAnim.keys.length ∧
    (0 : ℚ) ≤ 50 - 0 - wTickAnim.delay ∧ 0 < wTickAnim.keys.length ∧
    (tickUpdates wTickAnim 50 0).bind (fun l => l[0]?) =
      some ((wTickAnim.keys[0]?).getD "",
        if 1 ≤ min ((50 - 0 - wTickAnim.delay) / wTickAnim.duration) 1 then
          JsNum.fin ((wTickAnim.endVals[0]?).getD 0)
        else
          jsAdd (JsNum.fin ((wTickAnim.startVals[0]?).getD 0))
            (jsMul
              (JsNum.fin ((wTickAnim.endVals[0]?).getD 0 -
                (wTickAnim.startVals[0]?).getD 0))
              (computeEased wTickAnim.easing
                (min ((50 - 0 - wTickAnim.delay) / wTickAnim.duration) 1)))) :=
  ⟨rfl, by norm_num [wTickAnim], by norm_num [wTickAnim], rfl, rfl,
    by norm_num [wTickAnim], by norm_num [wTickAnim],
    c5_interpolation wTickAnim 50 0 0 rfl (by norm_num [wTickAnim])
      (by norm_num [wTickAnim]) rfl rfl (by norm_num [wTickAnim])
      (by norm_num [wTickAnim])⟩

/-- Claim C7 counterexample: an easing function that returns a non-finite
value is NOT replaced by linear progress — the non-finite value propagates
into the written update.  At t = 50 (progress 1/2) the linear value would be
`fin 5`, but the tick writes `nonfinite`. -/
theorem c7_counterexample :
    tickUpdates nfTickAnim 50 0 = some [("x", JsNum.nonfinite)] ∧
    JsNum.nonfinite ≠ JsNum.fin 5 ∧
    computeEased nfTickAnim.easing
        (min ((50 - 0 - nfTickAnim.delay) / nfTickAnim.duration) 1) =
      JsNum.nonfinite := by
  refine ⟨?_, by simp, ?_⟩
  · unfold tickUpdates nfTickAnim
    norm_num [computeEased, jsAdd, jsMul, min_def]
  · rfl

/-- A caught easing exception leaves the linear progress value. -/
theorem computeEased_thrown (f : ℚ → EaseEval) (p : ℚ)
    (h : f p = .thrown) : computeEased (some f) p = .fin p := by
  show (match f p with
    | EaseEval.thrown => JsNum.fin p
    | EaseEval.val v => v) = JsNum.fin p
  rw [h]

/-- Claim C7 (amended): a thrown easing evaluation is caught per tween — the
tick behaves exactly as if no easing function were supplied (linear
progress) — and the batch loop still processes every animation of the batch.
A non-finite return value, however, is not detected (see the
counterexample). -/
theorem c7_thrown_easing (anims : List TickAnim) (ct ms : ℚ) (a : TickAnim)
    (f : ℚ → EaseEval) (hf : a.easing = some f)
    (hthrow : f (min ((ct - ms - a.delay) / a.duration) 1) = .thrown) :
    (batchTick anims ct ms).length = anims.length ∧
    tickUpdates a ct ms = tickUpdates { a with easing := none } ct ms := by
  constructor
  · simp [batchTick]
  · have he : computeEased a.easing (min ((ct - ms - a.delay) / a.duration) 1)
        = computeEased none (min ((ct - ms - a.delay) / a.duration) 1) := by
      rw [hf, computeEased_thrown f _ hthrow]
      rfl
    unfold tickUpdates
    dsimp only
    rw [he]

/-- Witness for C7 (amended): an always-throwing easing at t = 50. -/
theorem c7_thrown_easing_witness :
    throwTickAnim.easing = some (fun _ => EaseEval.thrown) ∧
    (fun _ : ℚ => EaseEval.thrown)
        (min ((50 - 0 - throwTickAnim.delay) / throwTickAnim.duration) 1) =
      EaseEval.thrown ∧
    ((batchTick [throwTickAnim] 50 0).length = [throwTickAnim].length ∧
      tickUpdates throwTickAnim 50 0 =
        tickUpdates { throwTickAnim with easing := none } 50 0) :=
  ⟨rfl, rfl,
    c7_thrown_easing [throwTickAnim] 50 0 throwTickAnim
      (fun _ => EaseEval.thrown) rfl rfl⟩

/-- Witness for C10 at a concrete two-step state, `stepIndex = 1`. -/
theorem c10_current_step_witness :
    (-1 : ℤ) ≤ wState.currentStep ∧
    wState.currentStep < (totalSteps wState : ℤ) ∧
    (((0 : ℤ) ≤ 1 → (1 : ℤ) < (totalSteps wState : ℤ) →
      (animateToStep wState 1 false 5000).currentStep = 1) ∧
    -1 ≤ (animateToStep wState 1 false 5000).currentStep ∧
    (animateToStep wState 1 false 5000).currentStep <
      (totalSteps wState : ℤ) ∧
    (initializeTargets wState).currentStep = -1) :=
  ⟨by decide, by decide,
    c10_current_step wState 1 false 5000 (by decide) (by decide)⟩

end KonvaAnim

namespace ShapeConnector

/-- Claim C9: the connector geometry is a pure function of the shape
rectangles — every anchor point is computed from the effective dimensions
`width * scaleX` and `height * scaleY` measured from the shape's top-left
corner (in particular the right anchor is
`(x + width*scaleX, y + height*scaleY/2)`), and for a straight connection
the computed point array is exactly `[from.x, from.y, to.x, to.y]` where
`from`/`to` are the two shapes' anchor points. -/
theorem c9_connector_geometry :
    (∀ s : Shape, getAnchorPoint s .left =
      (s.x, s.y + s.height * s.scaleY.getD 1 / 2)) ∧
    (∀ s : Shape, getAnchorPoint s .right =
      (s.x + s.width * s.scaleX.getD 1,
        s.y + s.height * s.scaleY.getD 1 / 2)) ∧
    (∀ s : Shape, getAnchorPoint s .top =
      (s.x + s.width * s.scaleX.getD 1 / 2, s.y)) ∧
    (∀ s : Shape, getAnchorPoint s .bottom =
      (s.x + s.width * s.scaleX.getD 1 / 2,
        s.y + s.height * s.scaleY.getD 1)) ∧
    (∀ s : Shape, getAnchorPoint s .center =
      (s.x + s.width * s.scaleX.getD 1 / 2,
        s.y + s.height * s.scaleY.getD 1 / 2)) ∧
    (∀ (f t : Shape) (fa ta : AnchorPoint),
      connectionPoints f t fa ta .straight =
        [(getAnchorPoint f fa).1, (getAnchorPoint f fa).2,
         (getAnchorPoint t ta).1, (getAnchorPoint t ta).2]) :=
  ⟨fun _ => rfl, fun _ => rfl, fun _ => rfl, fun _ => rfl, fun _ => rfl,
    fun _ _ _ _ => rfl⟩

end ShapeConnector
